import Mathlib

/-!
Verification of `TM1py/Services/DimensionService.py`.

The service is a stateless client facade: every public operation issues a
sequence of REST / collaborator calls and returns parsed data or raises.
We embed each operation as a pure Lean function over

* the entity types (`Dimension`, `Hierarchy`, `ElementAttribute`),
* an explicit trace of the calls the operation issues (`Op`),
* for `create`, an abstract server state `Srv` (the set of dimension names
  on the server) with injectable faults (`CreateEnv`), distinguishing the
  transport exception type (`PyErr.tm1pyException`, the only type caught by
  `create`) from any other exception (`PyErr.exception`),
* for `update` / `execute_mdx` / `get_all_names`, the server-reported data
  the collaborators return (`UpdateEnv`, `MdxResponse`, `DimensionNamesResponse`).

Collaborator code that is not part of the sources here (`TM1py.Utils`,
`HierarchyService`, `ProcessService`) is modelled from the specification and
marked as such in the doc comment of the corresponding definition.
-/

namespace TM1

/-- An element attribute: a name plus a type tag (e.g. "Numeric", "String"). -/
structure ElementAttribute where
  name : String
  attribute_type : String
deriving DecidableEq

/-- A hierarchy: its name, the name of its owning dimension, and its element
attributes. -/
structure Hierarchy where
  name : String
  dimension_name : String
  element_attributes : List ElementAttribute
deriving DecidableEq

/-- A dimension: its name and its ordered hierarchies.  Iterating over a
dimension (`for hierarchy in dimension`) iterates over `hierarchies` in order.
The `body` field stands for the JSON serialization `dimension.body`
(modelled from the spec: the `Dimension` entity is "serializable to/from the
server's JSON representation"; the serializer itself is not under the sources
here and its content is irrelevant to the service logic). -/
structure Dimension where
  name : String
  hierarchies : List Hierarchy
  body : String
deriving DecidableEq

/-- `dimension.hierarchy_names`. -/
def Dimension.hierarchy_names (d : Dimension) : List String :=
  d.hierarchies.map (fun h => h.name)

/-- Python exception values as far as `create` can tell them apart:
`tm1pyException` is the transport error type `TM1pyException` (the only type
named in the `except` clause); `exception` is any other exception, including
the plain `Exception("Dimension already exists")` raised by `create` itself. -/
inductive PyErr where
  | tm1pyException (msg : String)
  | exception (msg : String)
deriving DecidableEq

/-- Modelled from the spec: the error kind `AlreadyExistsError` is the error
raised by `create` on an existing dimension; in the code it is the plain
exception carrying the message "Dimension already exists". -/
def isAlreadyExistsError (e : PyErr) : Bool :=
  e == PyErr.exception "Dimension already exists"

/-- One REST / collaborator call issued by the service, as recorded in a
trace.  Query calls (existence probes, name listings) are recorded alongside
mutations. -/
inductive Op where
  | getDimension (dimension_name : String)
  | postDimensions (body : String)
  | hierarchyUpdate (dimension_name : String) (hierarchy_name : String)
  | deleteDimension (dimension_name : String)
  | hierarchyGetAllNames (dimension_name : String)
  | hierarchyDelete (dimension_name : String) (hierarchy_name : String)
  | hierarchyExists (dimension_name : String) (hierarchy_name : String)
  | hierarchyCreate (dimension_name : String) (hierarchy_name : String)
  | postExecuteMdx (mdx : String)
  | getDimensionNames
  | executeTiCode (lines_prolog : List String)
deriving DecidableEq

/-- Whether a call mutates server state (POST / PATCH-like update / DELETE /
TI execution), as opposed to a pure query. -/
def Op.isMutation : Op → Bool
  | .postDimensions _ => true
  | .hierarchyUpdate _ _ => true
  | .deleteDimension _ => true
  | .hierarchyDelete _ _ => true
  | .hierarchyCreate _ _ => true
  | .executeTiCode _ => true
  | _ => false

/-- Whether a call is a hierarchy deletion. -/
def Op.isHierarchyDelete : Op → Bool
  | .hierarchyDelete _ _ => true
  | _ => false

/-- Whether a call is a hierarchy create or update (an "upsert" call). -/
def Op.isUpsert : Op → Bool
  | .hierarchyUpdate _ _ => true
  | .hierarchyCreate _ _ => true
  | _ => false

/-- Abstract server state seen by `create`: the names of the dimensions that
currently exist on the server.  `exists` is always a live query against this
state, never a cached value. -/
structure Srv where
  dims : List String
deriving DecidableEq

/-- The existence probe `GET /Dimensions('name')` evaluated on the server
state. -/
def Srv.existsDim (s : Srv) (dimension_name : String) : Bool :=
  s.dims.contains dimension_name

/-- Effect of a successful `POST /Dimensions`: the dimension now exists. -/
def Srv.addDim (s : Srv) (dimension_name : String) : Srv :=
  ⟨s.dims ++ [dimension_name]⟩

/-- Effect of `DELETE /Dimensions('name')`: the dimension no longer exists. -/
def Srv.removeDim (s : Srv) (dimension_name : String) : Srv :=
  ⟨s.dims.filter (fun n => n != dimension_name)⟩

/-- Fault injection for `create`: `postFault` is the exception raised by the
`POST /Dimensions` call (`none` = success), `hierFault h` is the exception
raised by `hierarchies.update` on the hierarchy named `h` (`none` = success). -/
structure CreateEnv where
  postFault : Option PyErr
  hierFault : String → Option PyErr

/-- The hierarchy-update loop inside `create`: for every hierarchy of the
dimension, in order, if it has at least one element attribute, call
`hierarchies.update` on it; stop at the first exception. -/
def createHierarchyLoop (env : CreateEnv) : List Hierarchy → Except PyErr Unit × List Op
  | [] => (Except.ok (), [])
  | h :: rest =>
    if h.element_attributes.length > 0 then
      match env.hierFault h.name with
      | some e => (Except.error e, [Op.hierarchyUpdate h.dimension_name h.name])
      | none =>
        let (r, t) := createHierarchyLoop env rest
        (r, Op.hierarchyUpdate h.dimension_name h.name :: t)
    else
      createHierarchyLoop env rest

/-- The `try` block of `create`: the `POST /Dimensions` followed by the
hierarchy-update loop.  A failed POST does not create the dimension. -/
def tryBlock (env : CreateEnv) (srv : Srv) (d : Dimension) :
    Except PyErr Unit × Srv × List Op :=
  match env.postFault with
  | some e => (Except.error e, srv, [Op.postDimensions d.body])
  | none =>
    let (r, t) := createHierarchyLoop env d.hierarchies
    (r, srv.addDim d.name, Op.postDimensions d.body :: t)

/-- The outcome of the `try` block (which exception, if any, escapes it);
independent of the server state. -/
def tryResult (env : CreateEnv) (d : Dimension) : Except PyErr Unit :=
  match env.postFault with
  | some e => Except.error e
  | none => (createHierarchyLoop env d.hierarchies).1

/-- `DimensionService.create`: raise `Exception("Dimension already exists")`
if the dimension exists; otherwise run the `try` block; on a `TM1pyException`
re-check existence, delete the dimension if it exists, and re-raise; any
other exception propagates uncaught.  Returns the result, the final server
state and the trace of issued calls. -/
def create (env : CreateEnv) (srv : Srv) (d : Dimension) :
    Except PyErr Unit × Srv × List Op :=
  if srv.existsDim d.name then
    (Except.error (PyErr.exception "Dimension already exists"), srv, [Op.getDimension d.name])
  else
    let (r, srv1, t) := tryBlock env srv d
    match r with
    | Except.ok _ => (Except.ok (), srv1, Op.getDimension d.name :: t)
    | Except.error e =>
      match e with
      | PyErr.tm1pyException m =>
        if srv1.existsDim d.name then
          (Except.error (PyErr.tm1pyException m), srv1.removeDim d.name,
            Op.getDimension d.name :: t ++ [Op.getDimension d.name, Op.deleteDimension d.name])
        else
          (Except.error (PyErr.tm1pyException m), srv1,
            Op.getDimension d.name :: t ++ [Op.getDimension d.name])
      | PyErr.exception m =>
        (Except.error (PyErr.exception m), srv1, Op.getDimension d.name :: t)

/-- Modelled from the spec: `case_and_space_insensitive_equals` from
`TM1py.Utils.Utils` (not under the sources here) — "implement as a
normalization function (strip whitespace, lowercase) applied before
equality": drop the space characters of a name and lowercase it. -/
def normalizeName (s : String) : String :=
  ((s.data.filter (fun c => c != ' ')).map Char.toLower).asString

/-- Modelled from the spec: names compare equal iff their normalizations are
equal. -/
def caseAndSpaceInsensitiveEquals (a b : String) : Bool :=
  normalizeName a == normalizeName b

/-- Collaborator answers consumed by `update`: the hierarchy names the
server currently holds for the dimension (`hierarchies.get_all_names`) and
the per-hierarchy existence probe (`hierarchies.exists`, keyed by dimension
name and hierarchy name). -/
structure UpdateEnv where
  serverHierarchyNames : List String
  hierarchyOnServer : String → String → Bool

/-- The set `set(self.hierarchies.get_all_names(dimension.name)) -
set(dimension.hierarchy_names)` computed by `update` — a plain (exact,
case- and space-sensitive) string set difference.  Python's set iteration
order is unspecified; we fix the server-reported order of the deduplicated
names, which realizes the same set. -/
def hierarchies_to_be_removed (serverNames dimensionNames : List String) : List String :=
  serverNames.dedup.filter (fun n => !(dimensionNames.contains n))

/-- Modelled from the spec: the case/space-insensitive set difference the
spec attributes to `update` — server names with no case/space-insensitive
match among the dimension's hierarchy names. -/
def hierarchies_to_be_removed_insensitive (serverNames dimensionNames : List String) :
    List String :=
  serverNames.dedup.filter
    (fun n => !(dimensionNames.any (fun m => caseAndSpaceInsensitiveEquals n m)))

/-- The upsert loop of `update`: for every hierarchy of the dimension, in
order, skip it when its name is case/space-insensitively "Leaves", otherwise
probe `hierarchies.exists(hierarchy.dimension_name, hierarchy.name)` and
issue `hierarchies.update` on a hit, `hierarchies.create` on a miss. -/
def upsertLoop (env : UpdateEnv) : List Hierarchy → List Op
  | [] => []
  | h :: rest =>
    (if caseAndSpaceInsensitiveEquals h.name "Leaves" then []
     else
       Op.hierarchyExists h.dimension_name h.name ::
         (if env.hierarchyOnServer h.dimension_name h.name then
            [Op.hierarchyUpdate h.dimension_name h.name]
          else
            [Op.hierarchyCreate h.dimension_name h.name]))
    ++ upsertLoop env rest

/-- `DimensionService.update`: list the server's hierarchy names, delete the
removed hierarchies, then run the upsert loop.  Returns the trace of issued
calls. -/
def update (env : UpdateEnv) (d : Dimension) : List Op :=
  Op.hierarchyGetAllNames d.name ::
    (hierarchies_to_be_removed env.serverHierarchyNames d.hierarchy_names).map
      (fun n => Op.hierarchyDelete d.name n)
    ++ upsertLoop env d.hierarchies

/-- One member of a tuple on a result axis, as delivered by
`POST /ExecuteMDX` after the `$expand=...Members($select=Ordinal;$expand=Element($select=Name))`
projection: only the element name matters here. -/
structure MdxMember where
  elementName : String
deriving DecidableEq, Inhabited

/-- One tuple on a result axis: its list of members. -/
structure MdxTuple where
  members : List MdxMember
deriving DecidableEq

/-- One result axis: its list of tuples. -/
structure MdxAxis where
  tuples : List MdxTuple
deriving DecidableEq

/-- The JSON body of an `ExecuteMDX` response: its list of axes (after the
`$filter=Ordinal eq 1` projection of the request). -/
structure MdxResponse where
  axes : List MdxAxis
deriving DecidableEq

/-- The full MDX statement `execute_mdx` builds: the skeleton
`"SELECT {} ON ROWS, \x7b\x7b [}}ElementAttributes_{}].DefaultMember \x7d\x7d ON COLUMNS  FROM [}}ElementAttributes_{}]"`
with the caller's row expression and the dimension name formatted in (the
doubled braces of the Python literal render as single braces). -/
def mdx_full (mdx dimension_name : String) : String :=
  "SELECT " ++ mdx ++ " ON ROWS, \x7b [\x7dElementAttributes_" ++ dimension_name ++
    "].DefaultMember \x7d ON COLUMNS  FROM [\x7dElementAttributes_" ++ dimension_name ++ "]"

/-- Modelled from the spec: the MDX template quoted literally in the
external-interfaces section,
`SELECT \x7bmdx\x7d ON ROWS, \x7b\x7dElementAttributes_\x7bdim\x7d].DefaultMember\x7d ON COLUMNS FROM []ElementAttributes_\x7bdim\x7d]`,
with `\x7bmdx\x7d` and `\x7bdim\x7d` substituted. -/
def mdx_full_spec_template (mdx dimension_name : String) : String :=
  "SELECT " ++ mdx ++ " ON ROWS, \x7b\x7dElementAttributes_" ++ dimension_name ++
    "].DefaultMember\x7d ON COLUMNS FROM []ElementAttributes_" ++ dimension_name ++ "]"

/-- `row_tuple['Members'][0]['Element']['Name']`: the element name of the
first member of a tuple; fails (Python `IndexError`) when the tuple has no
members. -/
def extractTupleName (t : MdxTuple) : Option String :=
  t.members.head?.map (fun m => m.elementName)

/-- The list comprehension over the tuples of an axis: extract each tuple's
first-member element name, left to right, failing at the first tuple with no
members (Python raises `IndexError` there). -/
def extractList : List MdxTuple → Option (List String)
  | [] => some []
  | t :: rest =>
    match extractTupleName t with
    | none => none
    | some n =>
      match extractList rest with
      | none => none
      | some ns => some (n :: ns)

/-- `[... for row_tuple in raw_dict['Axes'][0]['Tuples']]`: the element
names of the first members of the tuples of the first axis of the response;
fails when there is no axis or some tuple has no members. -/
def extractNames (resp : MdxResponse) : Option (List String) :=
  match resp.axes.head? with
  | none => none
  | some axis => extractList axis.tuples

/-- `DimensionService.execute_mdx`: build the full MDX, post it, extract the
element names.  Returns the extraction result and the trace. -/
def execute_mdx (resp : MdxResponse) (dimension_name mdx : String) :
    Option (List String) × List Op :=
  (extractNames resp, [Op.postExecuteMdx (mdx_full mdx dimension_name)])

/-- A response tuple cut down to its first member. -/
def truncateTuple (t : MdxTuple) : MdxTuple :=
  ⟨t.members.take 1⟩

/-- A response with every tuple cut down to its first member. -/
def truncateResponse (r : MdxResponse) : MdxResponse :=
  ⟨r.axes.map (fun a => ⟨a.tuples.map truncateTuple⟩)⟩

/-- One entry of the `GET /Dimensions?$select=Name` response: its `Name`
field. -/
structure NameEntry where
  Name : String
deriving DecidableEq

/-- The `GET /Dimensions?$select=Name` response body: its `value` array. -/
structure DimensionNamesResponse where
  value : List NameEntry
deriving DecidableEq

/-- `DimensionService.get_all_names`: the `Name` field of each entry of the
response's `value` array, in response order.  Returns the names and the
trace. -/
def get_all_names (resp : DimensionNamesResponse) : List String × List Op :=
  (resp.value.map (fun e => e.Name), [Op.getDimensionNames])

/-- One `AttrInsert` TI statement,
`AttrInsert('{dim}', '', '{attr}', '{t}');` with `t` the first character of
the attribute's type tag; fails (Python `IndexError`) when the type tag is
empty. -/
def attrInsertStatement (dimension_name : String) (ea : ElementAttribute) : Option String :=
  ea.attribute_type.data.head?.map (fun c =>
    "AttrInsert(\x27" ++ dimension_name ++ "\x27, \x27\x27, \x27" ++ ea.name ++
      "\x27, \x27" ++ String.singleton c ++ "\x27);")

/-- The statement-building list comprehension of
`create_element_attributes_through_ti`: one `AttrInsert` statement per
element attribute, left to right, failing at the first empty type tag
(Python raises `IndexError` there). -/
def attrStatements (dimension_name : String) : List ElementAttribute → Option (List String)
  | [] => some []
  | ea :: rest =>
    match attrInsertStatement dimension_name ea with
    | none => none
    | some st =>
      match attrStatements dimension_name rest with
      | none => none
      | some sts => some (st :: sts)

/-- The loop of `create_element_attributes_through_ti`: for every hierarchy,
in order, build its `AttrInsert` statements and submit them as one
`execute_ti_code` call; an `IndexError` while building the statements stops
the loop (previously submitted batches stay submitted).  The Bool records
whether the loop ran to completion. -/
def tiLoop (dimension_name : String) : List Hierarchy → List Op × Bool
  | [] => ([], true)
  | h :: rest =>
    match attrStatements dimension_name h.element_attributes with
    | none => ([], false)
    | some stmts =>
      let (t, ok) := tiLoop dimension_name rest
      (Op.executeTiCode stmts :: t, ok)

/-- `DimensionService.create_element_attributes_through_ti`. -/
def create_element_attributes_through_ti (d : Dimension) : List Op × Bool :=
  tiLoop d.name d.hierarchies

/-! ## Helper lemmas -/

theorem Srv.existsDim_addDim (s : Srv) (n : String) : (s.addDim n).existsDim n = true := by
  simp [Srv.addDim, Srv.existsDim, List.contains, List.elem_eq_mem]

theorem Srv.existsDim_removeDim (s : Srv) (n : String) :
    (s.removeDim n).existsDim n = false := by
  simp [Srv.removeDim, Srv.existsDim, List.contains, List.elem_eq_mem, List.mem_filter]

theorem createHierarchyLoop_no_delete (env : CreateEnv) (n : String) :
    ∀ hs : List Hierarchy, Op.deleteDimension n ∉ (createHierarchyLoop env hs).2 := by
  intro hs
  induction hs with
  | nil => simp [createHierarchyLoop]
  | cons h rest ih =>
    by_cases ha : h.element_attributes.length > 0
    · cases hf : env.hierFault h.name with
      | some e => simp [createHierarchyLoop, ha, hf]
      | none => simp [createHierarchyLoop, ha, hf, ih]
    · simpa [createHierarchyLoop, ha] using ih

theorem tryBlock_no_delete (env : CreateEnv) (srv : Srv) (d : Dimension) (n : String) :
    Op.deleteDimension n ∉ (tryBlock env srv d).2.2 := by
  cases hp : env.postFault with
  | some e => simp [tryBlock, hp]
  | none => simp [tryBlock, hp, createHierarchyLoop_no_delete]

/-! ## C2: create on an existing name -/

/-- C2: for every dimension whose name already exists on the server, `create`
fails with the already-exists error (the spec's `AlreadyExistsError`) and
issues no network mutation: its trace is the single existence probe. -/
theorem create_already_exists (env : CreateEnv) (srv : Srv) (d : Dimension)
    (h : srv.existsDim d.name = true) :
    (∃ e, (create env srv d).1 = Except.error e ∧ isAlreadyExistsError e = true)
    ∧ (create env srv d).2.1 = srv
    ∧ ((create env srv d).2.2).filter Op.isMutation = [] := by
  refine ⟨⟨PyErr.exception "Dimension already exists", ?_, by decide⟩, ?_, ?_⟩ <;>
    simp [create, h, Op.isMutation]

/-- Witness for C2 at a concrete server holding dimension "D". -/
theorem create_already_exists_witness :
    (∃ e, (create ⟨none, fun _ => none⟩ ⟨["D"]⟩ ⟨"D", [], "b"⟩).1 = Except.error e
        ∧ isAlreadyExistsError e = true)
    ∧ (create ⟨none, fun _ => none⟩ ⟨["D"]⟩ ⟨"D", [], "b"⟩).2.1 = (⟨["D"]⟩ : Srv)
    ∧ ((create ⟨none, fun _ => none⟩ ⟨["D"]⟩ ⟨"D", [], "b"⟩).2.2).filter Op.isMutation = [] :=
  create_already_exists ⟨none, fun _ => none⟩ ⟨["D"]⟩ ⟨"D", [], "b"⟩ (by decide)

/-! ## C1: compensating delete on failure inside create -/

/-- C1 counterexample: a failure that is not of the transport exception type
(a plain exception raised by the second collaborator call) is not caught by
`create`: no compensating delete is issued, the error propagates, and the
partially-created dimension still exists afterwards — refuting the claim for
"every failure raised inside create after the existence check". -/
theorem create_rollback_counterexample :
    (create ⟨none, fun _ => some (PyErr.exception "boom")⟩ ⟨[]⟩
        ⟨"D", [⟨"H", "D", [⟨"A", "S"⟩]⟩], "b"⟩).1 = Except.error (PyErr.exception "boom")
    ∧ (create ⟨none, fun _ => some (PyErr.exception "boom")⟩ ⟨[]⟩
        ⟨"D", [⟨"H", "D", [⟨"A", "S"⟩]⟩], "b"⟩).2.1.existsDim "D" = true
    ∧ Op.deleteDimension "D" ∉
        (create ⟨none, fun _ => some (PyErr.exception "boom")⟩ ⟨[]⟩
          ⟨"D", [⟨"H", "D", [⟨"A", "S"⟩]⟩], "b"⟩).2.2 := by
  refine ⟨by rfl, by decide, by decide⟩

/-- C1 (amended): for every failure of the transport exception type
(`TM1pyException`) raised during the POST or a hierarchy update, `create`
re-raises the original error, afterwards the dimension does not exist, and —
whenever the POST had succeeded, i.e. the dimension was partially created —
a compensating delete is issued. -/
theorem create_tm1py_rollback (env : CreateEnv) (srv : Srv) (d : Dimension) (msg : String)
    (h0 : srv.existsDim d.name = false)
    (h1 : tryResult env d = Except.error (PyErr.tm1pyException msg)) :
    (create env srv d).1 = Except.error (PyErr.tm1pyException msg)
    ∧ (create env srv d).2.1.existsDim d.name = false
    ∧ (env.postFault = none → Op.deleteDimension d.name ∈ (create env srv d).2.2) := by
  cases hp : env.postFault with
  | some e =>
    have he : e = PyErr.tm1pyException msg := by
      simpa [tryResult, hp] using h1
    subst he
    refine ⟨?_, ?_, ?_⟩ <;> simp [create, tryBlock, hp, h0]
  | none =>
    rcases hq : createHierarchyLoop env d.hierarchies with ⟨r, tl⟩
    have hr : r = Except.error (PyErr.tm1pyException msg) := by
      simpa [tryResult, hp, hq] using h1
    subst hr
    refine ⟨?_, ?_, ?_⟩ <;>
      simp [create, tryBlock, hp, hq, h0, Srv.existsDim_addDim, Srv.existsDim_removeDim]

/-- Witness for C1 (amended): a transport failure injected at the hierarchy
update of a one-hierarchy dimension on an empty server. -/
theorem create_tm1py_rollback_witness :
    (create ⟨none, fun _ => some (PyErr.tm1pyException "boom")⟩ ⟨[]⟩
        ⟨"D", [⟨"H", "D", [⟨"A", "S"⟩]⟩], "b"⟩).1
      = Except.error (PyErr.tm1pyException "boom")
    ∧ (create ⟨none, fun _ => some (PyErr.tm1pyException "boom")⟩ ⟨[]⟩
        ⟨"D", [⟨"H", "D", [⟨"A", "S"⟩]⟩], "b"⟩).2.1.existsDim "D" = false
    ∧ ((⟨none, fun _ => some (PyErr.tm1pyException "boom")⟩ : CreateEnv).postFault = none →
        Op.deleteDimension "D" ∈
          (create ⟨none, fun _ => some (PyErr.tm1pyException "boom")⟩ ⟨[]⟩
            ⟨"D", [⟨"H", "D", [⟨"A", "S"⟩]⟩], "b"⟩).2.2) :=
  create_tm1py_rollback ⟨none, fun _ => some (PyErr.tm1pyException "boom")⟩ ⟨[]⟩
    ⟨"D", [⟨"H", "D", [⟨"A", "S"⟩]⟩], "b"⟩ "boom" (by decide) (by rfl)

/-! ## C9: the compensation is guarded by the exception type and a live
existence check -/

/-- C9: a compensating delete is issued only when the failure escaping the
`try` block is of the transport exception type and only after the live
existence re-check confirms the dimension exists; any other exception
propagates unchanged with no compensating delete, leaving the
partially-created dimension in place whenever the POST had succeeded. -/
theorem create_compensation_guard (env : CreateEnv) (srv : Srv) (d : Dimension) :
    (Op.deleteDimension d.name ∈ (create env srv d).2.2 →
      (∃ msg, tryResult env d = Except.error (PyErr.tm1pyException msg))
      ∧ (tryBlock env srv d).2.1.existsDim d.name = true)
    ∧ (∀ msg, tryResult env d = Except.error (PyErr.exception msg) →
        srv.existsDim d.name = false →
          (create env srv d).1 = Except.error (PyErr.exception msg)
          ∧ Op.deleteDimension d.name ∉ (create env srv d).2.2
          ∧ (env.postFault = none → (create env srv d).2.1.existsDim d.name = true)) := by
  constructor
  · intro hmem
    by_cases hg : srv.existsDim d.name = true
    · simp [create, hg] at hmem
    · rw [Bool.not_eq_true] at hg
      rcases ht : tryBlock env srv d with ⟨r, srv1, t⟩
      have hnd : Op.deleteDimension d.name ∉ t := by
        have := tryBlock_no_delete env srv d d.name
        rw [ht] at this; exact this
      have hres : tryResult env d = r := by
        cases hp : env.postFault with
        | some e => simp [tryResult, tryBlock, hp] at ht ⊢; exact ht.1
        | none =>
          rcases hq : createHierarchyLoop env d.hierarchies with ⟨r0, tl⟩
          simp [tryResult, tryBlock, hp, hq] at ht ⊢; exact ht.1
      cases r with
      | ok u => simp [create, hg, ht, hnd] at hmem
      | error e =>
        cases e with
        | tm1pyException m =>
          by_cases hx : srv1.existsDim d.name = true
          · exact ⟨⟨m, hres⟩, hx⟩
          · rw [Bool.not_eq_true] at hx
            simp [create, hg, ht, hx, hnd] at hmem
        | exception m => simp [create, hg, ht, hnd] at hmem
  · intro msg hres hg
    rcases ht : tryBlock env srv d with ⟨r, srv1, t⟩
    have hnd : Op.deleteDimension d.name ∉ t := by
      have := tryBlock_no_delete env srv d d.name
      rw [ht] at this; exact this
    cases hp : env.postFault with
    | some e =>
      have he : e = PyErr.exception msg := by simpa [tryResult, hp] using hres
      subst he
      have ht' : srv1 = srv ∧ t = [Op.postDimensions d.body] ∧ r = Except.error (PyErr.exception msg) := by
        simp [tryBlock, hp] at ht; exact ⟨ht.2.1.symm, ht.2.2.symm, ht.1.symm⟩
      refine ⟨?_, ?_, ?_⟩ <;>
        simp [create, hg, ht, ht'.2.2, hnd, hp]
    | none =>
      rcases hq : createHierarchyLoop env d.hierarchies with ⟨r0, tl⟩
      have hr0 : r0 = Except.error (PyErr.exception msg) := by
        simpa [tryResult, hp, hq] using hres
      have ht' : r = Except.error (PyErr.exception msg) ∧ srv1 = srv.addDim d.name := by
        simp [tryBlock, hp, hq, hr0] at ht; exact ⟨ht.1.symm, ht.2.1.symm⟩
      refine ⟨?_, ?_, ?_⟩ <;>
        simp [create, hg, ht, ht'.1, ht'.2, hnd, Srv.existsDim_addDim]

/-- Witness for C9 at a concrete non-transport failure injected at the
hierarchy update: the error propagates, no delete is issued, the dimension
remains. -/
theorem create_compensation_guard_witness :
    tryResult ⟨none, fun _ => some (PyErr.exception "boom")⟩
        ⟨"D", [⟨"H", "D", [⟨"A", "S"⟩]⟩], "b"⟩ = Except.error (PyErr.exception "boom")
    ∧ ((create ⟨none, fun _ => some (PyErr.exception "boom")⟩ ⟨[]⟩
          ⟨"D", [⟨"H", "D", [⟨"A", "S"⟩]⟩], "b"⟩).1 = Except.error (PyErr.exception "boom")
        ∧ Op.deleteDimension "D" ∉
            (create ⟨none, fun _ => some (PyErr.exception "boom")⟩ ⟨[]⟩
              ⟨"D", [⟨"H", "D", [⟨"A", "S"⟩]⟩], "b"⟩).2.2
        ∧ ((⟨none, fun _ => some (PyErr.exception "boom")⟩ : CreateEnv).postFault = none →
            (create ⟨none, fun _ => some (PyErr.exception "boom")⟩ ⟨[]⟩
              ⟨"D", [⟨"H", "D", [⟨"A", "S"⟩]⟩], "b"⟩).2.1.existsDim "D" = true)) :=
  ⟨by rfl,
    (create_compensation_guard ⟨none, fun _ => some (PyErr.exception "boom")⟩ ⟨[]⟩
      ⟨"D", [⟨"H", "D", [⟨"A", "S"⟩]⟩], "b"⟩).2 "boom" (by rfl) (by decide)⟩

/-! ## Lemmas about the upsert loop of update -/

theorem upsertLoop_no_delete (env : UpdateEnv) :
    ∀ hs : List Hierarchy, ∀ op ∈ upsertLoop env hs, op.isHierarchyDelete = false := by
  intro hs
  induction hs with
  | nil => simp [upsertLoop]
  | cons h rest ih =>
    intro op hop
    by_cases hg : caseAndSpaceInsensitiveEquals h.name "Leaves" = true
    · exact ih op (by simpa [upsertLoop, hg] using hop)
    · rw [Bool.not_eq_true] at hg
      by_cases hx : env.hierarchyOnServer h.dimension_name h.name = true
      · rcases (by simpa [upsertLoop, hg, hx] using hop :
          op = Op.hierarchyExists h.dimension_name h.name
          ∨ op = Op.hierarchyUpdate h.dimension_name h.name
          ∨ op ∈ upsertLoop env rest) with h1 | h1 | h1
        · subst h1; rfl
        · subst h1; rfl
        · exact ih op h1
      · rw [Bool.not_eq_true] at hx
        rcases (by simpa [upsertLoop, hg, hx] using hop :
          op = Op.hierarchyExists h.dimension_name h.name
          ∨ op = Op.hierarchyCreate h.dimension_name h.name
          ∨ op ∈ upsertLoop env rest) with h1 | h1 | h1
        · subst h1; rfl
        · subst h1; rfl
        · exact ih op h1

theorem upsertLoop_filter_upsert (env : UpdateEnv) :
    ∀ hs : List Hierarchy,
      (upsertLoop env hs).filter Op.isUpsert =
        (hs.filter (fun h => !(caseAndSpaceInsensitiveEquals h.name "Leaves"))).map
          (fun h =>
            if env.hierarchyOnServer h.dimension_name h.name then
              Op.hierarchyUpdate h.dimension_name h.name
            else
              Op.hierarchyCreate h.dimension_name h.name) := by
  intro hs
  induction hs with
  | nil => simp [upsertLoop]
  | cons h rest ih =>
    by_cases hg : caseAndSpaceInsensitiveEquals h.name "Leaves" = true
    · simp [upsertLoop, hg, ih]
    · rw [Bool.not_eq_true] at hg
      by_cases hx : env.hierarchyOnServer h.dimension_name h.name = true
      · simp [upsertLoop, hg, hx, ih, Op.isUpsert]
      · rw [Bool.not_eq_true] at hx
        simp [upsertLoop, hg, hx, ih, Op.isUpsert]

theorem upsertLoop_skips_leaves (env : UpdateEnv) :
    ∀ hs : List Hierarchy, ∀ dn hn : String,
      (Op.hierarchyUpdate dn hn ∈ upsertLoop env hs
          ∨ Op.hierarchyCreate dn hn ∈ upsertLoop env hs) →
        caseAndSpaceInsensitiveEquals hn "Leaves" = false := by
  intro hs
  induction hs with
  | nil => simp [upsertLoop]
  | cons h rest ih =>
    intro dn hn hop
    by_cases hg : caseAndSpaceInsensitiveEquals h.name "Leaves" = true
    · exact ih dn hn (by simpa [upsertLoop, hg] using hop)
    · rw [Bool.not_eq_true] at hg
      by_cases hx : env.hierarchyOnServer h.dimension_name h.name = true
      · rcases hop with hop | hop
        · rcases (by simpa [upsertLoop, hg, hx] using hop :
            (dn = h.dimension_name ∧ hn = h.name) ∨
              Op.hierarchyUpdate dn hn ∈ upsertLoop env rest) with ⟨_, h2⟩ | h1
          · subst h2; exact hg
          · exact ih dn hn (Or.inl h1)
        · rcases (by simpa [upsertLoop, hg, hx] using hop :
            Op.hierarchyCreate dn hn ∈ upsertLoop env rest) with h1
          exact ih dn hn (Or.inr h1)
      · rw [Bool.not_eq_true] at hx
        rcases hop with hop | hop
        · rcases (by simpa [upsertLoop, hg, hx] using hop :
            Op.hierarchyUpdate dn hn ∈ upsertLoop env rest) with h1
          exact ih dn hn (Or.inl h1)
        · rcases (by simpa [upsertLoop, hg, hx] using hop :
            (dn = h.dimension_name ∧ hn = h.name) ∨
              Op.hierarchyCreate dn hn ∈ upsertLoop env rest) with ⟨_, h2⟩ | h1
          · subst h2; exact hg
          · exact ih dn hn (Or.inr h1)

theorem deleteOps_filter (dn : String) :
    ∀ l : List String,
      (l.map (fun n => Op.hierarchyDelete dn n)).filter Op.isHierarchyDelete =
        l.map (fun n => Op.hierarchyDelete dn n) := by
  intro l
  induction l with
  | nil => rfl
  | cons n rest ih => simp [Op.isHierarchyDelete, ih]

/-! ## C3: the hierarchy-deletion set computed by update -/

/-- C3 counterexample: the server holds hierarchy "BUDGET" and the given
dimension holds "Budget" — equal up to case, so the case/space-insensitive
set difference is empty — yet `update` deletes "BUDGET", because the code
computes a plain (exact) set difference. -/
theorem update_delete_set_counterexample :
    Op.hierarchyDelete "D" "BUDGET" ∈
      update ⟨["BUDGET"], fun _ _ => true⟩ ⟨"D", [⟨"Budget", "D", []⟩], "b"⟩
    ∧ hierarchies_to_be_removed_insensitive ["BUDGET"] ["Budget"] = [] := by
  refine ⟨by decide, by decide⟩

/-- C3 (amended): `update` deletes exactly the hierarchies computed by the
exact (case- and space-sensitive) set difference of the server-reported names
minus the dimension's hierarchy names, and no others. -/
theorem update_deletes_exact_difference (env : UpdateEnv) (d : Dimension) :
    (update env d).filter Op.isHierarchyDelete =
      (hierarchies_to_be_removed env.serverHierarchyNames d.hierarchy_names).map
        (fun n => Op.hierarchyDelete d.name n) := by
  have h1 := deleteOps_filter d.name
    (hierarchies_to_be_removed env.serverHierarchyNames d.hierarchy_names)
  have h2 : (upsertLoop env d.hierarchies).filter Op.isHierarchyDelete = [] := by
    rw [List.filter_eq_nil_iff]
    intro op hop
    simp [upsertLoop_no_delete env d.hierarchies op hop]
  simp [update, List.filter_append, h1, h2, Op.isHierarchyDelete]

/-! ## C4: update never creates or updates a "Leaves" hierarchy -/

/-- C4: `update` never issues a hierarchy create or update call for a name
that equals "Leaves" under the case- and space-insensitive comparison. -/
theorem update_never_upserts_leaves (env : UpdateEnv) (d : Dimension) (dn hn : String)
    (h : Op.hierarchyUpdate dn hn ∈ update env d
        ∨ Op.hierarchyCreate dn hn ∈ update env d) :
    caseAndSpaceInsensitiveEquals hn "Leaves" = false := by
  apply upsertLoop_skips_leaves env d.hierarchies dn hn
  rcases h with h | h
  · left
    simpa [update, List.mem_append, List.mem_map] using h
  · right
    simpa [update, List.mem_append, List.mem_map] using h

/-- Witness for C4: `update` on a one-hierarchy dimension issues a hierarchy
update for "H", whose name is not "Leaves". -/
theorem update_never_upserts_leaves_witness :
    (Op.hierarchyUpdate "D" "H" ∈
        update ⟨[], fun _ _ => true⟩ ⟨"D", [⟨"H", "D", []⟩], "b"⟩
      ∨ Op.hierarchyCreate "D" "H" ∈
          update ⟨[], fun _ _ => true⟩ ⟨"D", [⟨"H", "D", []⟩], "b"⟩)
    ∧ caseAndSpaceInsensitiveEquals "H" "Leaves" = false :=
  ⟨Or.inl (by decide),
    update_never_upserts_leaves ⟨[], fun _ _ => true⟩ ⟨"D", [⟨"H", "D", []⟩], "b"⟩
      "D" "H" (Or.inl (by decide))⟩

/-! ## C5: order of operations inside update -/

/-- C5 counterexample: the dimension contains a hierarchy named "Leaves"
that exists on the server, yet `update` issues neither an update nor a
create for it — refuting "issuing an update for each hierarchy that exists
on the server and a create for each that does not". -/
theorem update_order_counterexample :
    Op.hierarchyUpdate "D" "Leaves" ∉
      update ⟨["Leaves"], fun _ _ => true⟩ ⟨"D", [⟨"Leaves", "D", []⟩], "b"⟩
    ∧ Op.hierarchyCreate "D" "Leaves" ∉
        update ⟨["Leaves"], fun _ _ => true⟩ ⟨"D", [⟨"Leaves", "D", []⟩], "b"⟩ := by
  refine ⟨by decide, by decide⟩

/-- C5 (amended): `update` issues all hierarchy deletions before any
hierarchy create or update call; the create/update calls then follow the
dimension's iteration order restricted to the hierarchies not named "Leaves"
(case/space-insensitive), with an update when the hierarchy exists on the
server and a create when it does not. -/
theorem update_operation_order (env : UpdateEnv) (d : Dimension) :
    ∃ dels ups, update env d = Op.hierarchyGetAllNames d.name :: dels ++ ups
      ∧ (∀ op ∈ dels, op.isUpsert = false)
      ∧ (∀ op ∈ ups, op.isHierarchyDelete = false)
      ∧ ups.filter Op.isUpsert =
          (d.hierarchies.filter
              (fun h => !(caseAndSpaceInsensitiveEquals h.name "Leaves"))).map
            (fun h =>
              if env.hierarchyOnServer h.dimension_name h.name then
                Op.hierarchyUpdate h.dimension_name h.name
              else
                Op.hierarchyCreate h.dimension_name h.name) := by
  refine ⟨(hierarchies_to_be_removed env.serverHierarchyNames d.hierarchy_names).map
      (fun n => Op.hierarchyDelete d.name n),
    upsertLoop env d.hierarchies, rfl, ?_, upsertLoop_no_delete env d.hierarchies,
    upsertLoop_filter_upsert env d.hierarchies⟩
  intro op hop
  rcases List.mem_map.mp hop with ⟨n, _, hn⟩
  subst hn
  rfl

/-! ## Lemmas about the MDX extraction -/

theorem extractTupleName_truncate (t : MdxTuple) :
    extractTupleName (truncateTuple t) = extractTupleName t := by
  cases hm : t.members with
  | nil => simp [extractTupleName, truncateTuple, hm]
  | cons m ms => simp [extractTupleName, truncateTuple, hm]

theorem extractList_truncate :
    ∀ ts : List MdxTuple,
      extractList (ts.map truncateTuple) = extractList ts := by
  intro ts
  induction ts with
  | nil => rfl
  | cons t rest ih => simp [extractList, extractTupleName_truncate, ih]

theorem extractList_of_nonempty :
    ∀ ts : List MdxTuple, (∀ t ∈ ts, t.members ≠ []) →
      extractList ts = some (ts.map (fun t => t.members.headI.elementName)) := by
  intro ts
  induction ts with
  | nil => intro _; rfl
  | cons t rest ih =>
    intro hne
    have ht : t.members ≠ [] := hne t (by simp)
    cases hm : t.members with
    | nil => exact absurd hm ht
    | cons m ms =>
      have hrest := ih (fun u hu => hne u (by simp [hu]))
      simp [extractList, extractTupleName, hm, hrest, List.headI]

theorem extractList_none_of_empty :
    ∀ ts : List MdxTuple, ∀ t ∈ ts, t.members = [] →
      extractList ts = none := by
  intro ts
  induction ts with
  | nil => intro t ht; simp at ht
  | cons u rest ih =>
    intro t ht hempty
    rcases List.mem_cons.mp ht with h1 | h1
    · subst h1
      simp [extractList, extractTupleName, hempty]
    · have := ih t h1 hempty
      cases hu : extractTupleName u with
      | none => simp [extractList, hu]
      | some s => simp [extractList, hu, this]

/-! ## C6: the MDX template built and posted by execute_mdx -/

/-- C6 counterexample: the template built by the code differs from the
template quoted literally in the spec (the spec string drops the bracket
before the `\x7dElementAttributes_` cube name, the spaces inside the COLUMNS
braces, the doubled space after COLUMNS, and writes `[]` instead of `[\x7d`
after FROM). -/
theorem execute_mdx_template_counterexample :
    mdx_full "X" "d" ≠ mdx_full_spec_template "X" "d"
    ∧ (execute_mdx ⟨[]⟩ "d" "X").2 = [Op.postExecuteMdx (mdx_full "X" "d")] := by
  refine ⟨by decide, rfl⟩

/-- C6 (amended): for every dimension name and caller-supplied row
expression, `execute_mdx` posts exactly the code's fixed MDX skeleton with
the row expression and the dimension name substituted (the
`\x7dElementAttributes_` cube of the dimension), and returns the ordered list
of the element names of the first member of each tuple on the first result
axis, in server-reported order. -/
theorem execute_mdx_template_and_extraction (resp : MdxResponse)
    (dimension_name mdx : String) (axis : MdxAxis)
    (h1 : resp.axes.head? = some axis)
    (h2 : ∀ t ∈ axis.tuples, t.members ≠ []) :
    (execute_mdx resp dimension_name mdx).2 =
      [Op.postExecuteMdx
        ("SELECT " ++ mdx ++ " ON ROWS, \x7b [\x7dElementAttributes_" ++ dimension_name ++
          "].DefaultMember \x7d ON COLUMNS  FROM [\x7dElementAttributes_" ++
          dimension_name ++ "]")]
    ∧ (execute_mdx resp dimension_name mdx).1 =
        some (axis.tuples.map (fun t => t.members.headI.elementName)) := by
  refine ⟨rfl, ?_⟩
  simp [execute_mdx, extractNames, h1, extractList_of_nonempty axis.tuples h2]

/-- Witness for C6 (amended): a response whose first axis carries two
one-member tuples yields exactly those two element names, in order. -/
theorem execute_mdx_template_and_extraction_witness :
    (execute_mdx ⟨[⟨[⟨[⟨"E1"⟩]⟩, ⟨[⟨"E2"⟩]⟩]⟩]⟩ "Region" "X").2 =
      [Op.postExecuteMdx
        ("SELECT " ++ "X" ++ " ON ROWS, \x7b [\x7dElementAttributes_" ++ "Region" ++
          "].DefaultMember \x7d ON COLUMNS  FROM [\x7dElementAttributes_" ++
          "Region" ++ "]")]
    ∧ (execute_mdx ⟨[⟨[⟨[⟨"E1"⟩]⟩, ⟨[⟨"E2"⟩]⟩]⟩]⟩ "Region" "X").1 = some ["E1", "E2"] :=
  execute_mdx_template_and_extraction ⟨[⟨[⟨[⟨"E1"⟩]⟩, ⟨[⟨"E2"⟩]⟩]⟩]⟩ "Region" "X"
    ⟨[⟨[⟨"E1"⟩]⟩, ⟨[⟨"E2"⟩]⟩]⟩ rfl (by decide)

/-! ## C10: only the first member of each tuple is read -/

/-- C10: the extraction of `execute_mdx` depends only on the first member of
each tuple (truncating every tuple to its first member does not change the
result, so element names in further members are dropped), and a tuple with
an empty member list makes the whole extraction fail rather than be
skipped. -/
theorem execute_mdx_first_member_only (resp : MdxResponse) (dimension_name mdx : String) :
    (execute_mdx resp dimension_name mdx).1 =
      (execute_mdx (truncateResponse resp) dimension_name mdx).1
    ∧ (∀ axis, resp.axes.head? = some axis →
        ∀ t ∈ axis.tuples, t.members = [] →
          (execute_mdx resp dimension_name mdx).1 = none) := by
  constructor
  · cases ha : resp.axes with
    | nil => simp [execute_mdx, extractNames, truncateResponse, ha]
    | cons a rest =>
      simp [execute_mdx, extractNames, truncateResponse, ha, extractList_truncate]
  · intro axis h1 t ht hempty
    simp [execute_mdx, extractNames, h1, extractList_none_of_empty axis.tuples t ht hempty]

/-- Witness for C10: a response whose first axis holds a two-member tuple
and an empty tuple; the extraction fails, and it agrees with the extraction
on the truncated response. -/
theorem execute_mdx_first_member_only_witness :
    (execute_mdx ⟨[⟨[⟨[⟨"E1"⟩, ⟨"E2"⟩]⟩, ⟨[]⟩]⟩]⟩ "d" "X").1 =
      (execute_mdx (truncateResponse ⟨[⟨[⟨[⟨"E1"⟩, ⟨"E2"⟩]⟩, ⟨[]⟩]⟩]⟩) "d" "X").1
    ∧ (execute_mdx ⟨[⟨[⟨[⟨"E1"⟩, ⟨"E2"⟩]⟩, ⟨[]⟩]⟩]⟩ "d" "X").1 = none :=
  ⟨(execute_mdx_first_member_only ⟨[⟨[⟨[⟨"E1"⟩, ⟨"E2"⟩]⟩, ⟨[]⟩]⟩]⟩ "d" "X").1,
    (execute_mdx_first_member_only ⟨[⟨[⟨[⟨"E1"⟩, ⟨"E2"⟩]⟩, ⟨[]⟩]⟩]⟩ "d" "X").2
      ⟨[⟨[⟨"E1"⟩, ⟨"E2"⟩]⟩, ⟨[]⟩]⟩ rfl ⟨[]⟩ (by decide) rfl⟩

/-! ## C8: get_all_names returns the Name fields in order -/

/-- C8: `get_all_names` returns exactly the `Name` field of each entry of
the response's `value` array, preserving the server-reported order: the
result has the same length and at every index holds that entry's `Name`. -/
theorem get_all_names_fields_in_order (resp : DimensionNamesResponse) :
    ((get_all_names resp).1).length = resp.value.length
    ∧ ∀ i : Nat, ((get_all_names resp).1).get? i = (resp.value.get? i).map (fun e => e.Name) := by
  refine ⟨by simp [get_all_names], ?_⟩
  intro i
  simp [get_all_names, List.getElem?_map, List.get?_eq_getElem?]

/-! ## C7: AttrInsert batches submitted through the Process client -/

/-- C7 counterexample: a dimension with two hierarchies, each carrying one
element attribute, produces two separate `execute_ti_code` submissions (one
per hierarchy), not a single batch holding all statements. -/
theorem ti_single_batch_counterexample :
    (create_element_attributes_through_ti
        ⟨"D", [⟨"H1", "D", [⟨"A", "S"⟩]⟩, ⟨"H2", "D", [⟨"B", "N"⟩]⟩], "b"⟩).1 =
      [Op.executeTiCode ["AttrInsert(\x27D\x27, \x27\x27, \x27A\x27, \x27S\x27);"],
        Op.executeTiCode ["AttrInsert(\x27D\x27, \x27\x27, \x27B\x27, \x27N\x27);"]]
    ∧ ((create_element_attributes_through_ti
        ⟨"D", [⟨"H1", "D", [⟨"A", "S"⟩]⟩, ⟨"H2", "D", [⟨"B", "N"⟩]⟩], "b"⟩).1).length ≠ 1 := by
  refine ⟨by decide, by decide⟩

/-- C7 (amended): for every dimension whose attribute type tags are
non-empty, `create_element_attributes_through_ti` submits one
`execute_ti_code` batch per hierarchy, in the dimension's iteration order;
each batch holds one `AttrInsert` statement per element attribute of that
hierarchy, keyed by the dimension name, the attribute name, and the first
character of the attribute's type tag. -/
theorem attr_statements_of_nonempty (dn : String) :
    ∀ eas : List ElementAttribute, (∀ ea ∈ eas, ea.attribute_type ≠ "") →
      attrStatements dn eas =
        some (eas.map (fun ea =>
          "AttrInsert(\x27" ++ dn ++ "\x27, \x27\x27, \x27" ++ ea.name ++ "\x27, \x27" ++
            String.singleton ea.attribute_type.data.headI ++ "\x27);")) := by
  intro eas
  induction eas with
  | nil => intro _; rfl
  | cons ea rest ih =>
    intro hall
    have h1 : ea.attribute_type ≠ "" := hall ea (by simp)
    have hd : ea.attribute_type.data ≠ [] := by
      intro hnil
      apply h1
      cases hty : ea.attribute_type with
      | mk l =>
        rw [hty] at hnil
        simp at hnil
        subst hnil
        rfl
    cases hc : ea.attribute_type.data with
    | nil => exact absurd hc hd
    | cons c cs =>
      have hone : attrInsertStatement dn ea =
          some ("AttrInsert(\x27" ++ dn ++ "\x27, \x27\x27, \x27" ++ ea.name ++
            "\x27, \x27" ++ String.singleton c ++ "\x27);") := by
        simp [attrInsertStatement, hc]
      have hrest := ih (fun u hu => hall u (by simp [hu]))
      simp [attrStatements, hone, hrest, hc, List.headI]

theorem tiLoop_map_of_nonempty (dn : String) :
    ∀ hs : List Hierarchy,
      (∀ hh ∈ hs, ∀ ea ∈ hh.element_attributes, ea.attribute_type ≠ "") →
      tiLoop dn hs =
        (hs.map (fun hh =>
          Op.executeTiCode (hh.element_attributes.map (fun ea =>
            "AttrInsert(\x27" ++ dn ++ "\x27, \x27\x27, \x27" ++ ea.name ++ "\x27, \x27" ++
              String.singleton ea.attribute_type.data.headI ++ "\x27);"))),
          true) := by
  intro hs
  induction hs with
  | nil => intro _; rfl
  | cons hh rest ih =>
    intro hall
    have hstmts := attr_statements_of_nonempty dn hh.element_attributes (hall hh (by simp))
    have hrest := ih (fun u hu ea hea => hall u (by simp [hu]) ea hea)
    simp [tiLoop, hstmts, hrest]

theorem ti_one_batch_per_hierarchy (d : Dimension)
    (hne : ∀ hh ∈ d.hierarchies, ∀ ea ∈ hh.element_attributes, ea.attribute_type ≠ "") :
    create_element_attributes_through_ti d =
      (d.hierarchies.map (fun hh =>
        Op.executeTiCode (hh.element_attributes.map (fun ea =>
          "AttrInsert(\x27" ++ d.name ++ "\x27, \x27\x27, \x27" ++ ea.name ++
            "\x27, \x27" ++ String.singleton ea.attribute_type.data.headI ++ "\x27);"))),
        true) :=
  tiLoop_map_of_nonempty d.name d.hierarchies hne

/-- Witness for C7 (amended) at a concrete two-hierarchy dimension. -/
theorem ti_one_batch_per_hierarchy_witness :
    create_element_attributes_through_ti
        ⟨"D", [⟨"H1", "D", [⟨"A", "String"⟩]⟩, ⟨"H2", "D", [⟨"B", "Numeric"⟩]⟩], "b"⟩ =
      ([⟨"H1", "D", [⟨"A", "String"⟩]⟩, (⟨"H2", "D", [⟨"B", "Numeric"⟩]⟩ : Hierarchy)].map
        (fun hh =>
          Op.executeTiCode (hh.element_attributes.map (fun ea =>
            "AttrInsert(\x27" ++ "D" ++ "\x27, \x27\x27, \x27" ++ ea.name ++
              "\x27, \x27" ++ String.singleton ea.attribute_type.data.headI ++ "\x27);"))),
        true) :=
  ti_one_batch_per_hierarchy
    ⟨"D", [⟨"H1", "D", [⟨"A", "String"⟩]⟩, ⟨"H2", "D", [⟨"B", "Numeric"⟩]⟩], "b"⟩
    (by decide)

end TM1
